import Mathlib

/-!
Verification development for the Code-Visualiser repository (src/codevis.py).

The file shallowly embeds the two core components of the program:

* `PythonConverter` — the source-to-construct conversion (`visit_*` methods,
  `_make_branch`, `_handle_fields`, `_visit_and_collect`,
  `_remove_file_extension`), modelled over an abstract Python-2 AST type;
* `ProjectManager` — the incremental synchronisation engine
  (`_make_package_from_dir`, `_create_package`, `_remove_node`,
  `_update_file_contents`, `_get_package`, and the `handle_*` entry points),
  modelled as pure state-passing functions that also report the Python
  exception (if any) escaping the operation and the number of renderer calls.

External collaborators (the `ast` parser, the filesystem, pyinotify and the
renderers) are represented by their observable results: a file's parse outcome
is an `Except` value supplied as input, a directory snapshot is an explicit
tree of entries, and renders are counted.
-/

namespace Codevis

/-- The closed set of construct kinds declared in codevis.py
(`Package`, `Class`, `Function`, `Iteration`, `Branch`, `BranchPart`). -/
inductive Kind where
  | package
  | cls
  | function
  | iteration
  | branch
  | branchPart
deriving DecidableEq

/-- `Construct`: a node of the structural model.  `name` is `Option` because
the Python attribute may be `None` (e.g. for `Iteration`/`Branch`), and
`children` is `Option` because `_handle_fields` returns `None` rather than an
empty list when nothing was collected. -/
inductive Construct where
  | mk (kind : Kind) (name : Option String) (children : Option (List Construct))

/-- Projection of the `kind` tag of a construct. -/
def Construct.kind : Construct → Kind
  | .mk k _ _ => k

/-- Projection of the `name` attribute of a construct. -/
def Construct.name : Construct → Option String
  | .mk _ n _ => n

/-- Projection of the `children` attribute of a construct. -/
def Construct.children : Construct → Option (List Construct)
  | .mk _ _ c => c

/-- The children of a construct, reading Python `None` as the empty list
(the renderers treat `None` and `[]` identically via `if tree.children:`). -/
def childrenOf (c : Construct) : List Construct :=
  (Construct.children c).getD []

/-- Number of children in `cs` whose `name` attribute equals `some n`. -/
def countName (cs : List Construct) (n : String) : Nat :=
  cs.countP (fun c => Construct.name c = some n)

/-- Python-2 lexicographic byte comparison of strings, on the character
lists (`a <= b`).  ASCII names compare identically to CPython 2. -/
def pyLeChars : List Char → List Char → Bool
  | [], _ => true
  | _ :: _, [] => false
  | a :: as, b :: bs =>
    if a.toNat < b.toNat then true
    else if b.toNat < a.toNat then false
    else pyLeChars as bs

/-- `a <= b` for Python-2 strings. -/
def pyLeStr (a b : String) : Bool :=
  pyLeChars a.data b.data

/-- Python-2 comparison of `name` attributes used by
`children.sort(key=lambda x: x.name)`: `None` compares below every string. -/
def pyLeName : Option String → Option String → Bool
  | none, _ => true
  | some _, none => false
  | some a, some b => pyLeStr a b

/-- Stable insertion of `x` into `l` under `le` (after all elements it does
not strictly precede). -/
def insertLe (le : α → α → Bool) (x : α) : List α → List α
  | [] => [x]
  | y :: ys => if le x y then x :: y :: ys else y :: insertLe le x ys

/-- Stable sort under `le`; CPython's `list.sort`/`sorted` are stable, and
any two stable sorts under a total preorder produce the same output list. -/
def pySort (le : α → α → Bool) : List α → List α
  | [] => []
  | x :: xs => insertLe le x (pySort le xs)

/-- `package.children.sort(key=lambda x: x.name)` from codevis.py. -/
def pySortCon (cs : List Construct) : List Construct :=
  pySort (fun a b => pyLeName (Construct.name a) (Construct.name b)) cs

/-- `true` iff consecutive elements of the list are `le`-ordered. -/
def chainLe (le : α → α → Bool) : List α → Bool
  | [] => true
  | [_] => true
  | a :: b :: rest => le a b && chainLe le (b :: rest)

/-- `true` iff the construct list is sorted by the Python-2 ordering of the
`name` attributes. -/
def isSortedByName (cs : List Construct) : Bool :=
  chainLe (fun a b => pyLeName (Construct.name a) (Construct.name b)) cs

/-- `_handle_fields`'s final step: a non-empty collected list is returned as
is; an empty one becomes Python `None`. -/
def optList (l : List Construct) : Option (List Construct) :=
  match l with
  | [] => none
  | _ :: _ => some l

mutual
/-- Abstract Python-2 syntax node, covering exactly the node shapes the
visitor of codevis.py distinguishes.  Every node kind without a dedicated
`visit_X` handler is a `generic` node carrying its `_fields` values in
declaration order. -/
inductive Ast where
  | module (body : List Ast)
  | classDef (name : String) (body : List Ast)
  | functionDef (name : String) (body : List Ast)
  | ifStmt (test : Ast) (body : List Ast) (orelse : List Ast)
  | tryExcept (body : List Ast) (orelse : List Ast)
  | tryFinally (body : List Ast) (finalbody : List Ast)
  | whileStmt (test : Ast) (body : List Ast)
  | forStmt (target : Ast) (iter : Ast) (body : List Ast)
  | generic (fields : List FieldVal)

/-- The value of one `_fields` entry of a generic node: a single child node,
a list of child nodes, or a non-AST value (identifier, constant, `None`),
which `_visit_and_collect` skips via its `isinstance(value, ast.AST)` check. -/
inductive FieldVal where
  | node (a : Ast)
  | nodes (l : List Ast)
  | atom
end

/-- The possible Python return values of `visit`: a single `Construct`, a
list (from `generic_visit`), or `None`. -/
inductive VResult where
  | con (c : Construct)
  | list (l : List Construct)
  | noneV

/-- `_visit_and_collect`'s flattening of one visit result into the constructs
it contributes: a construct is appended, a list is spliced, `None` adds
nothing. -/
def vres : VResult → List Construct
  | .con c => [c]
  | .list l => l
  | .noneV => []

/-- Python `str.split(sep)` for a single-character separator: split at every
occurrence, keeping empty groups (`"".split(".") == [""]`,
`"a..b".split(".") == ["a","","b"]`). -/
def pySplit (sep : Char) : List Char → List (List Char)
  | [] => [[]]
  | c :: rest =>
    match pySplit sep rest with
    | [] => [[]]
    | g :: gs => if c = sep then [] :: g :: gs else (c :: g) :: gs

/-- Python `sep.join(parts)` for a single-character separator. -/
def pyJoin (sep : Char) : List (List Char) → List Char
  | [] => []
  | [g] => g
  | g :: gs => g ++ sep :: pyJoin sep gs

/-- Python `name.startswith(".")` (the hidden-entry test). -/
def startsWithDot (s : String) : Bool :=
  match s.data with
  | [] => false
  | c :: _ => c = '.'

/-- `a` is a leading run of `b` (character-wise). -/
def leadEq : List Char → List Char → Bool
  | [], _ => true
  | _ :: _, [] => false
  | a :: as, b :: bs => if a = b then leadEq as bs else false

/-- Python `fname.endswith(ext)`. -/
def pyEndsWith (s suffix : String) : Bool :=
  leadEq suffix.data.reverse s.data.reverse

/-- `PythonConverter._remove_file_extension`:
`".".join(filename.split(".")[:-1])`. -/
def remove_file_extension (filename : String) : String :=
  String.mk (pyJoin '.' ((pySplit '.' filename.data).dropLast))

mutual
/-- `PythonConverter.visit` dispatch: the per-node-class handlers
(`visit_Module`, `visit_ClassDef`, `visit_FunctionDef`, `visit_If`,
`visit_TryExcept`, `visit_TryFinally`, `visit_While`, `visit_For`) and the
`generic_visit` fallback.  `fn` is the converter's `filename` state set by
`_convert_source`. -/
def visit (fn : String) : Ast → VResult
  | .module body =>
      .con (.mk .package (some (remove_file_extension fn)) (optList (collectStmts fn body)))
  | .classDef name body =>
      .con (.mk .cls (some name) (optList (collectStmts fn body)))
  | .functionDef name body =>
      .con (.mk .function (some name) (optList (collectStmts fn body)))
  | .ifStmt _ body orelse =>
      .con (.mk .branch none (some
        [ .mk .branchPart none (optList (collectStmts fn body)),
          .mk .branchPart none (optList (collectStmts fn orelse)) ]))
  | .tryExcept body orelse =>
      .con (.mk .branch none (some
        [ .mk .branchPart none (optList (collectStmts fn body)),
          .mk .branchPart none (optList (collectStmts fn orelse)) ]))
  | .tryFinally body finalbody =>
      .con (.mk .branch none (some
        [ .mk .branchPart none (optList (collectStmts fn body)),
          .mk .branchPart none (optList (collectStmts fn finalbody)) ]))
  | .whileStmt _ body =>
      .con (.mk .iteration none (optList (collectStmts fn body)))
  | .forStmt _ _ body =>
      .con (.mk .iteration none (optList (collectStmts fn body)))
  | .generic fields =>
      match optList (collectFields fn fields) with
      | some l => .list l
      | none => .noneV

/-- One `_handle_fields` pass over a list-valued field: visit each item in
order and concatenate the contributions (`_visit_and_collect`). -/
def collectStmts (fn : String) : List Ast → List Construct
  | [] => []
  | a :: rest => vres (visit fn a) ++ collectStmts fn rest

/-- `_handle_fields` over the ordered `_fields` values of a generic node. -/
def collectFields (fn : String) : List FieldVal → List Construct
  | [] => []
  | .node a :: rest => vres (visit fn a) ++ collectFields fn rest
  | .nodes l :: rest => collectStmts fn l ++ collectFields fn rest
  | .atom :: rest => collectFields fn rest
end

/-- `visit_Module` as a standalone function: the root construct produced for
a whole parsed file named `fn`. -/
def visit_Module (fn : String) (body : List Ast) : Construct :=
  .mk .package (some (remove_file_extension fn)) (optList (collectStmts fn body))

/-- `PythonConverter._convert_source` / `convert_file`: the parse outcome of
the external `ast.parse` is supplied as an `Except` value (its `SyntaxError`
or `TypeError` is re-signalled as `ParseError`, here the `error` case); on
success the module body is visited under the file's name. -/
def convert_file (fname : String) (parsed : Except Unit (List Ast)) : Except Unit Construct :=
  match parsed with
  | .error e => .error e
  | .ok body => .ok (visit_Module fname body)

/-! ## The synchronisation engine (`ProjectManager`) -/

/-- Python exceptions that can escape an engine operation:
`FileUpdateException` (package or node not found), `TypeError` (iterating
`None` children), `AttributeError` (`None.append`). -/
inductive PyErr where
  | fileUpdate
  | typeErr
  | attrErr
deriving DecidableEq

/-- Outcome of one engine operation: the project tree afterwards, the Python
exception that escaped (if any), and how many times `output.render` ran. -/
structure OpResult where
  tree : Construct
  err : Option PyErr
  renders : Nat

/-- Drop trailing `/` characters (`head.rstrip('/')`). -/
def rstripSlash (l : List Char) : List Char :=
  (l.reverse.dropWhile (fun c => c = '/')).reverse

/-- `os.path.split` (posixpath): split at the last `/`; the head keeps its
trailing slashes only when it consists of slashes alone. -/
def osPathSplit (p : String) : String × String :=
  let r := p.data.reverse
  let tail := (r.takeWhile (fun c => c ≠ '/')).reverse
  let head := (r.dropWhile (fun c => c ≠ '/')).reverse
  let head2 := if head.isEmpty || head.all (fun c => c = '/') then head else rstripSlash head
  (String.mk head2, String.mk tail)

/-- The `while not path in ("","/")` loop of `_get_package`, with explicit
fuel (the Python loop diverges on pathological inputs such as `"//"`; the
fuel is ample for every terminating run, since each step shortens the path). -/
def pathPartsAux : Nat → String → List String → List String
  | 0, _, acc => acc
  | n + 1, path, acc =>
    if path = "" ∨ path = "/" then acc
    else
      let ht := osPathSplit path
      pathPartsAux n ht.1 (ht.2 :: acc)

/-- The ordered package-name segments `pparts` of a project-relative path. -/
def pathParts (p : String) : List String :=
  pathPartsAux (p.length + 1) p []

/-- `for child in curr.children: if child.name == pname: ...` — first child
whose `name` equals the segment, irrespective of its kind. -/
def lookupChild : List Construct → String → Option Construct
  | [], _ => none
  | c :: rest, p => if Construct.name c = some p then some c else lookupChild rest p

/-- The descending loop of `_get_package` over precomputed segments: at each
level scan the current node's children for the segment name
(`FileUpdateException` when absent, `TypeError` when `children` is `None`). -/
def descend : Construct → List String → Except PyErr Construct
  | c, [] => .ok c
  | c, p :: rest =>
    match Construct.children c with
    | none => .error .typeErr
    | some cs =>
      match lookupChild cs p with
      | none => .error .fileUpdate
      | some ch => descend ch rest

/-- `ProjectManager._get_package`. -/
def get_package (root : Construct) (path : String) : Except PyErr Construct :=
  descend root (pathParts path)

/-- In-place mutation of the children list down the resolution path: find the
first child named `p` (exactly as `_get_package`'s inner loop does), let `go`
rewrite it, and splice the result back.  `FileUpdateException` when no child
matches. -/
def mutateChildren : List Construct → String →
    (Construct → Except PyErr (Construct × Bool)) → Except PyErr (List Construct × Bool)
  | [], _, _ => .error .fileUpdate
  | c :: rest, p, go =>
    if Construct.name c = some p then
      match go c with
      | .error e => .error e
      | .ok cb => .ok (cb.1 :: rest, cb.2)
    else
      match mutateChildren rest p go with
      | .error e => .error e
      | .ok csb => .ok (c :: csb.1, csb.2)

/-- Resolve `segs` exactly as `_get_package` does and apply the mutation `f`
at the resolved node; the rebuilt tree reflects Python's in-place mutation
through the alias returned by `_get_package`.  The `Bool` reports whether the
operation reached its `output.render` call. -/
def mutateAt : List String → Construct →
    (Construct → Except PyErr (Construct × Bool)) → Except PyErr (Construct × Bool)
  | [], c, f => f c
  | p :: rest, c, f =>
    match Construct.children c with
    | none => .error .typeErr
    | some cs =>
      match mutateChildren cs p (fun x => mutateAt rest x f) with
      | .error e => .error e
      | .ok csb => .ok (.mk (Construct.kind c) (Construct.name c) (some csb.1), csb.2)

/-- Wrap a path-resolving mutation into an operation outcome: on a Python
exception the tree is as it was when the exception was raised (all the
operations below mutate only after every fallible step has passed, so the
pre-state is returned) and no render happens. -/
def applyAt (root : Construct) (segs : List String)
    (f : Construct → Except PyErr (Construct × Bool)) : OpResult :=
  match mutateAt segs root f with
  | .error e => { tree := root, err := some e, renders := 0 }
  | .ok tb => { tree := tb.1, err := none, renders := if tb.2 then 1 else 0 }

/-- The children transformation of `_create_package`: append a fresh empty
`Package` (its `children` attribute is Python `None`) and re-sort by name.
No existing same-named child is removed first. -/
def create_children (cs : List Construct) (name : String) : List Construct :=
  pySortCon (cs ++ [.mk .package (some name) none])

/-- `ProjectManager._create_package`: append a fresh empty `Package` to the
resolved package's children and re-sort them by name, then render. -/
def create_package (root : Construct) (path name : String) : OpResult :=
  applyAt root (pathParts path) (fun pkg =>
    match Construct.children pkg with
    | none => .error .attrErr
    | some cs => .ok (.mk (Construct.kind pkg) (Construct.name pkg) (some (create_children cs name)), true))

/-- The `for i,child in enumerate(...): if child.name == name: del; break /
else: raise` pattern of `_remove_node`: delete the first child named `name`,
or report that none exists. -/
def delFirstNamed : List Construct → String → Option (List Construct)
  | [], _ => none
  | c :: rest, n =>
    if Construct.name c = some n then some rest
    else (delFirstNamed rest n).map (fun cs => c :: cs)

/-- `ProjectManager._remove_node`: delete the named child of the resolved
package (raising `FileUpdateException` when absent), then render. -/
def remove_node (root : Construct) (path name : String) : OpResult :=
  applyAt root (pathParts path) (fun pkg =>
    match Construct.children pkg with
    | none => .error .typeErr
    | some cs =>
      match delFirstNamed cs name with
      | none => .error .fileUpdate
      | some cs2 => .ok (.mk (Construct.kind pkg) (Construct.name pkg) (some cs2), true))

/-- The delete-first-same-named loop of `_update_file_contents` (no error
when absent — the construct "may not already exist").  The comparison is
`child.name == con.name` on the raw attributes. -/
def delFirstEq : List Construct → Option String → List Construct
  | [], _ => []
  | c :: rest, nm => if Construct.name c = nm then rest else c :: delFirstEq rest nm

/-- The children transformation performed by `_update_file_contents` on a
successful parse: remove the same-named construct, append the new one,
re-sort by name. -/
def update_children (cs : List Construct) (con : Construct) : List Construct :=
  pySortCon (delFirstEq cs (Construct.name con) ++ [con])

/-- `ProjectManager._update_file_contents`: resolve the parent package, then
try to convert the file; on `ParseError` do nothing (`except ParseError:
pass` — no mutation, no render); on success replace/insert the converted
construct, re-sort and render.  The parse outcome of the external
`convert_file` call is the `parsed` input. -/
def update_file_contents (root : Construct) (path : String)
    (parsed : Except Unit Construct) : OpResult :=
  applyAt root (pathParts path) (fun pkg =>
    match parsed with
    | .error _ => .ok (pkg, false)
    | .ok con =>
      match Construct.children pkg with
      | none => .error .typeErr
      | some cs =>
        .ok (.mk (Construct.kind pkg) (Construct.name pkg) (some (update_children cs con)), true))

/-- A handler's no-op outcome when the dot-file filter rejects the entry. -/
def skipResult (root : Construct) : OpResult :=
  { tree := root, err := none, renders := 0 }

/-- `ProjectManager.handle_create_dir`. -/
def handle_create_dir (df : Bool) (root : Construct) (path name : String) : OpResult :=
  if df || !(startsWithDot name) then create_package root path name else skipResult root

/-- `ProjectManager.handle_create_file`; `parsed` is the outcome of the
`convert_file` call the operation performs on the on-disk file. -/
def handle_create_file (df : Bool) (root : Construct) (path name : String)
    (parsed : Except Unit Construct) : OpResult :=
  if df || !(startsWithDot name) then update_file_contents root path parsed else skipResult root

/-- `ProjectManager.handle_change_file`. -/
def handle_change_file (df : Bool) (root : Construct) (path name : String)
    (parsed : Except Unit Construct) : OpResult :=
  if df || !(startsWithDot name) then update_file_contents root path parsed else skipResult root

/-- `ProjectManager.handle_remove_dir`. -/
def handle_remove_dir (df : Bool) (root : Construct) (path name : String) : OpResult :=
  if df || !(startsWithDot name) then remove_node root path name else skipResult root

/-- `ProjectManager.handle_remove_file`. -/
def handle_remove_file (df : Bool) (root : Construct) (path name : String) : OpResult :=
  if df || !(startsWithDot name) then remove_node root path name else skipResult root

/-! ## The initial build (`_make_package_from_dir`) -/

/-- A snapshot of one directory entry as the build observes it: a
subdirectory with its own entries, or a file together with the outcome the
external `ast.parse` would give for its contents. -/
inductive Entry where
  | dir (name : String) (contents : List Entry)
  | file (name : String) (parsed : Except Unit (List Ast))

/-- The `os.listdir` name of an entry. -/
def entryName : Entry → String
  | .dir n _ => n
  | .file n _ => n

/-- `sorted(os.listdir(dirpath))`: the entries in name order. -/
def pySortEntries (es : List Entry) : List Entry :=
  pySort (fun a b => pyLeStr (entryName a) (entryName b)) es

/-- `any(map(lambda ext: fname.endswith(ext), ...get_code_extensions()))`. -/
def ext_matches (exts : List String) (fname : String) : Bool :=
  exts.any (fun e => pyEndsWith fname e)

mutual
/-- Size of one snapshot entry; strictly bounds the directory nesting depth
below it. -/
def entrySize : Entry → Nat
  | .dir _ contents => 1 + entryListSize contents
  | .file _ _ => 1

/-- Total size of a snapshot. -/
def entryListSize : List Entry → Nat
  | [] => 0
  | e :: rest => entrySize e + entryListSize rest
end

/-- The body of `_make_package_from_dir`: iterate over the name-sorted
entries; a hidden entry is skipped unless `df`; a subdirectory recurses; a
file whose extension matches is converted, a `ParseError` being swallowed
(the entry is skipped).  `fuel` is an upper bound on the directory nesting
depth, consumed once per level; the wrapper below passes a bound that a
snapshot can never exhaust (each level strictly decreases `entryListSize`,
and sorting permutes the entries, preserving it). -/
def buildEntries (fuel : Nat) (df : Bool) (exts : List String) (es : List Entry) :
    List Construct :=
  match fuel with
  | 0 => []
  | n + 1 =>
    (pySortEntries es).flatMap (fun e =>
      match e with
      | .dir nm contents =>
        if df || !(startsWithDot nm) then
          [.mk .package (some nm) (some (buildEntries n df exts contents))]
        else []
      | .file nm parsed =>
        if df || !(startsWithDot nm) then
          if ext_matches exts nm then
            match convert_file nm parsed with
            | .ok c => [c]
            | .error _ => []
          else []
        else [])

/-- `ProjectManager._make_package_from_dir`. -/
def make_package_from_dir (df : Bool) (exts : List String) (name : String)
    (entries : List Entry) : Construct :=
  .mk .package (some name) (some (buildEntries (entryListSize entries + 1) df exts entries))

/-! ## Concrete states used by the counterexamples and witnesses -/

/-- A Python `pass` statement: a node with no dedicated handler and no
fields (`ast.Pass._fields == ()`), so `generic_visit` collects nothing. -/
def passStmt : Ast := .generic []

/-- An empty project root, as built from an empty watched directory. -/
def demoRoot : Construct := .mk .package (some "R") (some [])

/-- A project root with one subdirectory package named `a`, as built from a
directory containing an empty subdirectory `a`. -/
def demoRootA : Construct :=
  .mk .package (some "R") (some [.mk .package (some "a") (some [])])

/-- Snapshot of a directory holding the two source files `foo.bar.py` and
`foo.py`, both with syntactically valid (empty) contents. -/
def dotsSnapshot : List Entry :=
  [.file "foo.bar.py" (.ok []), .file "foo.py" (.ok [])]

/-! ## Helper lemmas -/

theorem countP_insertLe (le : α → α → Bool) (p : α → Bool) (x : α) (l : List α) :
    (insertLe le x l).countP p = (x :: l).countP p := by
  induction l with
  | nil => rfl
  | cons y ys ih =>
    simp only [insertLe]
    split
    · rfl
    · simp only [List.countP_cons, ih]
      omega

theorem countP_pySort (le : α → α → Bool) (p : α → Bool) (l : List α) :
    (pySort le l).countP p = l.countP p := by
  induction l with
  | nil => rfl
  | cons x xs ih =>
    simp only [pySort]
    rw [countP_insertLe]
    simp only [List.countP_cons, ih]

theorem countName_pySortCon (cs : List Construct) (n : String) :
    countName (pySortCon cs) n = countName cs n :=
  countP_pySort _ _ cs

theorem countName_delFirstEq (cs : List Construct) (n : String) :
    countName (delFirstEq cs (some n)) n = countName cs n - 1 := by
  induction cs with
  | nil => rfl
  | cons c rest ih =>
    simp only [delFirstEq, countName, List.countP_cons]
    split
    · rename_i h
      simp [countName, h]
    · rename_i h
      simp only [List.countP_cons]
      have hc : (decide (Construct.name c = some n)) = false := by
        simp [h]
      simp only [countName] at ih
      simp [hc, ih]

theorem pyLeChars_total (a b : List Char) :
    pyLeChars a b = true ∨ pyLeChars b a = true := by
  induction a generalizing b with
  | nil => left; rfl
  | cons x xs ih =>
    cases b with
    | nil => right; rfl
    | cons y ys =>
      simp only [pyLeChars]
      rcases Nat.lt_trichotomy x.toNat y.toNat with h | h | h
      · left
        simp [h]
      · have h1 : ¬ x.toNat < y.toNat := by omega
        have h2 : ¬ y.toNat < x.toNat := by omega
        simp only [h1, h2, if_false]
        exact ih ys
      · right
        simp [h]

theorem pyLeName_total (a b : Option String) :
    pyLeName a b = true ∨ pyLeName b a = true := by
  cases a with
  | none => left; rfl
  | some s =>
    cases b with
    | none => right; rfl
    | some t => exact pyLeChars_total s.data t.data

/-- Head comparison used to state chain-sortedness. -/
def headLe (le : α → α → Bool) (x : α) : List α → Bool
  | [] => true
  | y :: _ => le x y

theorem chainLe_cons (le : α → α → Bool) (x : α) (l : List α) :
    chainLe le (x :: l) = (headLe le x l && chainLe le l) := by
  cases l <;> simp [chainLe, headLe]

theorem headLe_insertLe (le : α → α → Bool) (x y : α) (l : List α)
    (hyx : le y x = true) (hh : headLe le y l = true) :
    headLe le y (insertLe le x l) = true := by
  cases l with
  | nil => simpa [insertLe, headLe] using hyx
  | cons z zs =>
    simp only [insertLe]
    split
    · simpa [headLe] using hyx
    · simpa [headLe] using hh

theorem chainLe_insertLe (le : α → α → Bool)
    (htot : ∀ a b, le a b = true ∨ le b a = true)
    (x : α) (l : List α) (h : chainLe le l = true) :
    chainLe le (insertLe le x l) = true := by
  induction l with
  | nil => simp [insertLe, chainLe]
  | cons y ys ih =>
    rw [chainLe_cons] at h
    have hhead : headLe le y ys = true := (Bool.and_eq_true _ _ |>.mp h).1
    have htail : chainLe le ys = true := (Bool.and_eq_true _ _ |>.mp h).2
    simp only [insertLe]
    split
    · rename_i hxy
      rw [chainLe_cons, chainLe_cons]
      simp only [headLe] at hhead ⊢
      simp [hxy, hhead, htail]
    · rename_i hxy
      have hyx : le y x = true := by
        rcases htot x y with h1 | h1
        · exact absurd h1 (by simpa using hxy)
        · exact h1
      rw [chainLe_cons]
      have := headLe_insertLe le x y ys hyx hhead
      simp [this, ih htail]

theorem chainLe_pySort (le : α → α → Bool)
    (htot : ∀ a b, le a b = true ∨ le b a = true) (l : List α) :
    chainLe le (pySort le l) = true := by
  induction l with
  | nil => rfl
  | cons x xs ih => exact chainLe_insertLe le htot x (pySort le xs) ih

theorem isSortedByName_pySortCon (cs : List Construct) :
    isSortedByName (pySortCon cs) = true :=
  chainLe_pySort _ (fun a b => pyLeName_total (Construct.name a) (Construct.name b)) cs

theorem lookupChild_skip (p : String) (pre : List Construct)
    (h : ∀ x ∈ pre, Construct.name x ≠ some p) (c : Construct) (rest : List Construct)
    (hc : Construct.name c = some p) :
    lookupChild (pre ++ c :: rest) p = some c := by
  induction pre with
  | nil => simp [lookupChild, hc]
  | cons q qs ih =>
    have hq : Construct.name q ≠ some p := h q (by simp)
    simp only [List.cons_append, lookupChild, if_neg hq]
    exact ih (fun x hx => h x (by simp [hx]))

theorem mutateChildren_of_lookup_none (cs : List Construct) (p : String)
    (go : Construct → Except PyErr (Construct × Bool))
    (h : lookupChild cs p = none) :
    mutateChildren cs p go = .error .fileUpdate := by
  induction cs with
  | nil => rfl
  | cons c rest ih =>
    simp only [lookupChild] at h
    by_cases hc : Construct.name c = some p
    · simp [hc] at h
    · simp only [mutateChildren, if_neg hc]
      rw [ih (by simpa [hc] using h)]

theorem mutateChildren_of_lookup_err (cs : List Construct) (p : String)
    (go : Construct → Except PyErr (Construct × Bool)) (ch : Construct) (e : PyErr)
    (h : lookupChild cs p = some ch) (he : go ch = .error e) :
    mutateChildren cs p go = .error e := by
  induction cs with
  | nil => simp [lookupChild] at h
  | cons c rest ih =>
    simp only [lookupChild] at h
    by_cases hc : Construct.name c = some p
    · simp only [hc, if_pos rfl] at h
      simp only [mutateChildren, if_pos hc]
      cases h
      rw [he]
    · simp only [if_neg hc] at h
      simp only [mutateChildren, if_neg hc]
      rw [ih h]

theorem mutateChildren_of_lookup_noop (cs : List Construct) (p : String)
    (go : Construct → Except PyErr (Construct × Bool)) (ch : Construct)
    (h : lookupChild cs p = some ch) (hok : go ch = .ok (ch, false)) :
    mutateChildren cs p go = .ok (cs, false) := by
  induction cs with
  | nil => simp [lookupChild] at h
  | cons c rest ih =>
    simp only [lookupChild] at h
    by_cases hc : Construct.name c = some p
    · simp only [hc, if_pos rfl] at h
      simp only [mutateChildren, if_pos hc]
      cases h
      rw [hok]
    · simp only [if_neg hc] at h
      simp only [mutateChildren, if_neg hc]
      rw [ih h]

theorem mutateAt_of_descend_err (segs : List String) :
    ∀ (c : Construct) (e : PyErr) (f : Construct → Except PyErr (Construct × Bool)),
      descend c segs = .error e → mutateAt segs c f = .error e := by
  induction segs with
  | nil =>
    intro c e f h
    simp [descend] at h
  | cons p rest ih =>
    rintro ⟨k, nm, ch⟩ e f h
    cases ch with
    | none =>
      simp only [descend, Construct.children] at h
      simp only [mutateAt, Construct.children]
      cases h
      rfl
    | some cs =>
      simp only [descend, Construct.children] at h
      simp only [mutateAt, Construct.children]
      split at h
      · rename_i hl
        cases h
        rw [mutateChildren_of_lookup_none cs p _ hl]
      · rename_i ch2 hl
        rw [mutateChildren_of_lookup_err cs p _ ch2 e hl (ih ch2 e f h)]

theorem mutateAt_noop (segs : List String) :
    ∀ (c : Construct), (descend c segs).isOk = true →
      mutateAt segs c (fun x => .ok (x, false)) = .ok (c, false) := by
  induction segs with
  | nil => intro c _; rfl
  | cons p rest ih =>
    rintro ⟨k, nm, ch⟩ h
    cases ch with
    | none =>
      simp only [descend, Construct.children] at h
      simp [Except.isOk, Except.toBool] at h
    | some cs =>
      simp only [descend, Construct.children] at h
      split at h
      · simp [Except.isOk, Except.toBool] at h
      · rename_i c2 hl
        simp only [mutateAt, Construct.children]
        rw [mutateChildren_of_lookup_noop cs p _ c2 hl (ih c2 h)]
        rfl

theorem mutateAt_bool (P : Bool → Prop)
    (f : Construct → Except PyErr (Construct × Bool))
    (hf : ∀ x r b, f x = .ok (r, b) → P b) :
    ∀ (segs : List String) (c t : Construct) (b : Bool),
      mutateAt segs c f = .ok (t, b) → P b := by
  intro segs
  induction segs with
  | nil =>
    intro c t b h
    exact hf c t b h
  | cons p rest ih =>
    rintro ⟨k, nm, ch⟩ t b h
    have aux : ∀ (ds : List Construct) (cs2 : List Construct) (b2 : Bool),
        mutateChildren ds p (fun x => mutateAt rest x f) = .ok (cs2, b2) → P b2 := by
      intro ds
      induction ds with
      | nil => intro cs2 b2 hh; cases hh
      | cons d drest ihd =>
        intro cs2 b2 hh
        simp only [mutateChildren] at hh
        split at hh
        · cases hgo : mutateAt rest d f with
          | error e => rw [hgo] at hh; cases hh
          | ok cb =>
            rw [hgo] at hh
            cases hh
            exact ih d cb.1 cb.2 (by rw [hgo])
        · cases hrec : mutateChildren drest p (fun x => mutateAt rest x f) with
          | error e => rw [hrec] at hh; cases hh
          | ok csb =>
            rw [hrec] at hh
            cases hh
            exact ihd csb.1 csb.2 (by rw [hrec])
    cases ch with
    | none =>
      simp only [mutateAt, Construct.children] at h
      cases h
    | some cs =>
      simp only [mutateAt, Construct.children] at h
      split at h
      · cases h
      · rename_i csb hm
        cases h
        exact aux cs csb.1 csb.2 (by rw [hm])

theorem applyAt_renders (root : Construct) (segs : List String)
    (f : Construct → Except PyErr (Construct × Bool)) (flag : Bool)
    (hf : ∀ x r b, f x = .ok (r, b) → b = flag) :
    ((applyAt root segs f).renders = 1 ↔ ((applyAt root segs f).err = none ∧ flag = true)) ∧
    (applyAt root segs f).renders ≤ 1 := by
  unfold applyAt
  cases hm : mutateAt segs root f with
  | error e => simp
  | ok tb =>
    have hb : tb.2 = flag :=
      mutateAt_bool (· = flag) f hf segs root tb.1 tb.2 (by rw [hm])
    cases flag with
    | true => simp [hb]
    | false => simp [hb]

/-! ## Claim theorems -/

/-- C1, counterexample: the claim states that an event whose `parentPath`
does not resolve is dropped and "no exception escapes the engine's
event-handling entry points".  In fact `_get_package`'s
`FileUpdateException` propagates out of `handle_create_dir` (and the other
entry points) uncaught: on the empty project root, a directory-created event
under the non-existent parent `x` ends with the exception escaping the
handler. -/
theorem C1_counterexample :
    handle_create_dir false demoRoot "x" "d" =
      { tree := demoRoot, err := some PyErr.fileUpdate, renders := 0 } ∧
    some PyErr.fileUpdate ≠ (none : Option PyErr) :=
  ⟨rfl, by decide⟩

/-- C1, amended: for every event whose `parentPath` does not resolve
(`_get_package` raises), each of the five entry points leaves the tree
completely unchanged and performs no render, but the exception escapes the
entry point (it is not caught inside the engine); whether the next event is
processed is up to the external event loop. -/
theorem C1_missing_parent (df : Bool) (root : Construct) (path name : String)
    (parsed : Except Unit Construct) (e : PyErr)
    (h1 : get_package root path = .error e)
    (h2 : df = true ∨ startsWithDot name = false) :
    handle_create_dir df root path name = { tree := root, err := some e, renders := 0 } ∧
    handle_create_file df root path name parsed = { tree := root, err := some e, renders := 0 } ∧
    handle_change_file df root path name parsed = { tree := root, err := some e, renders := 0 } ∧
    handle_remove_dir df root path name = { tree := root, err := some e, renders := 0 } ∧
    handle_remove_file df root path name = { tree := root, err := some e, renders := 0 } := by
  have hg : (df || !(startsWithDot name)) = true := by
    rcases h2 with h | h <;> simp [h]
  have herr := fun f => mutateAt_of_descend_err (pathParts path) root e f h1
  refine ⟨?_, ?_, ?_, ?_, ?_⟩ <;>
    simp [handle_create_dir, handle_create_file, handle_change_file, handle_remove_dir,
      handle_remove_file, hg, create_package, update_file_contents, remove_node, applyAt, herr]

/-- C1, witness: the amended theorem applied on the empty project root to a
directory-created event under the unresolvable parent path `x`. -/
theorem C1_missing_parent_witness :
    (get_package demoRoot "x" = .error PyErr.fileUpdate ∧
      (false = true ∨ startsWithDot "d" = false)) ∧
    handle_create_dir false demoRoot "x" "d" =
      { tree := demoRoot, err := some PyErr.fileUpdate, renders := 0 } :=
  ⟨⟨rfl, Or.inr rfl⟩,
    (C1_missing_parent false demoRoot "x" "d" (.error ()) PyErr.fileUpdate rfl (Or.inr rfl)).1⟩

/-- C2, counterexample: the claim states that inserting a child whose name
equals an existing child's name always replaces it.  `_create_package`
appends without removing: creating a directory `a` under a parent that
already has a child named `a` succeeds and leaves two same-named siblings. -/
theorem C2_counterexample :
    (create_package demoRootA "" "a").err = none ∧
    countName (childrenOf (create_package demoRootA "" "a").tree) "a" = 2 :=
  ⟨rfl, rfl⟩

/-- C2, amended: the replace-not-duplicate behaviour holds for the file
update path only: `_update_file_contents` deletes the first child whose name
equals the converted construct's name before inserting, so a parent that had
at most one child with that name has exactly one afterwards.
`_create_package` (directory creation) appends unconditionally and can
duplicate. -/
theorem C2_update_replaces (k : Kind) (rn : Option String) (cs : List Construct)
    (con : Construct) (n : String)
    (h1 : countName cs n ≤ 1) (h2 : Construct.name con = some n) :
    countName (childrenOf (update_file_contents (.mk k rn (some cs)) "" (.ok con)).tree) n
      = 1 := by
  have hx : update_file_contents (Construct.mk k rn (some cs)) "" (.ok con) =
      { tree := .mk k rn (some (update_children cs con)), err := none, renders := 1 } := rfl
  rw [hx]
  show countName (update_children cs con) n = 1
  unfold update_children
  rw [h2]
  have h3 : countName [con] n = 1 := by simp [countName, h2]
  calc countName (pySortCon (delFirstEq cs (some n) ++ [con])) n
      = countName (delFirstEq cs (some n) ++ [con]) n := countName_pySortCon _ _
    _ = countName (delFirstEq cs (some n)) n + countName [con] n := by
        simp [countName, List.countP_append]
    _ = 1 := by
        rw [countName_delFirstEq, h3]
        omega

/-- C2, witness: updating the file `a.py` in a root that already holds one
child named `a` leaves exactly one child named `a`. -/
theorem C2_update_replaces_witness :
    (countName [Construct.mk .package (some "a") (some [])] "a" ≤ 1 ∧
      Construct.name (Construct.mk .package (some "a") none) = some "a") ∧
    countName (childrenOf (update_file_contents
        (.mk .package (some "R") (some [Construct.mk .package (some "a") (some [])])) ""
        (.ok (Construct.mk .package (some "a") none))).tree) "a" = 1 :=
  ⟨⟨by decide, rfl⟩,
    C2_update_replaces .package (some "R") [Construct.mk .package (some "a") (some [])]
      (Construct.mk .package (some "a") none) "a" (by decide) rfl⟩

/-- C4: when the parent path resolves and the file fails to convert
(`ParseError`), `_update_file_contents` — and the `handle_create_file` /
`handle_change_file` entry points around it — leave the whole tree exactly
as it was, no exception escapes, and no render happens: the failed update is
dropped. -/
theorem C4_parse_error_atomic (root : Construct) (path : String) (df : Bool) (name : String)
    (h : (get_package root path).isOk = true) :
    update_file_contents root path (.error ()) = { tree := root, err := none, renders := 0 } ∧
    handle_create_file df root path name (.error ()) =
      { tree := root, err := none, renders := 0 } ∧
    handle_change_file df root path name (.error ()) =
      { tree := root, err := none, renders := 0 } := by
  have h1 : update_file_contents root path (.error ()) =
      { tree := root, err := none, renders := 0 } := by
    have hm := mutateAt_noop (pathParts path) root h
    simp only [update_file_contents, applyAt]
    rw [hm]
    rfl
  refine ⟨h1, ?_, ?_⟩
  · unfold handle_create_file
    split
    · exact h1
    · rfl
  · unfold handle_change_file
    split
    · exact h1
    · rfl

/-- C4, witness: a parse-failing change event for a file directly in the
project root (path `""` resolves to the root itself) leaves the tree as it
was. -/
theorem C4_parse_error_atomic_witness :
    (get_package demoRootA "").isOk = true ∧
    update_file_contents demoRootA "" (.error ()) =
      { tree := demoRootA, err := none, renders := 0 } :=
  ⟨rfl, (C4_parse_error_atomic demoRootA "" false "b.py" rfl).1⟩

/-- C3, counterexample: the claim states that a clause field whose flattened
result is empty contributes no `BranchPart`.  In `_make_branch` every named
field contributes a `BranchPart` unconditionally: for `if` with a `pass`
body and no `else`, both clause fields flatten to nothing, yet the resulting
`Branch` has two `BranchPart` children (each with `None` children). -/
theorem C3_counterexample :
    collectStmts "m.py" [passStmt] = [] ∧
    collectStmts "m.py" ([] : List Ast) = [] ∧
    visit "m.py" (.ifStmt passStmt [passStmt] []) =
      .con (.mk .branch none (some [.mk .branchPart none none, .mk .branchPart none none])) :=
  ⟨rfl, rfl, rfl⟩

/-- C3, amended: conversion of a multi-clause node yields a `Branch` whose
children are exactly one `BranchPart` per clause field, in declared field
order, regardless of whether the field yields constructs; a field whose
flattened result is empty contributes a `BranchPart` whose children are
`None` (it is present, not omitted). -/
theorem C3_branch_shape (fn : String) (test : Ast) (body orelse finalbody : List Ast) :
    visit fn (.ifStmt test body orelse) = .con (.mk .branch none (some
      [.mk .branchPart none (optList (collectStmts fn body)),
       .mk .branchPart none (optList (collectStmts fn orelse))])) ∧
    visit fn (.tryExcept body orelse) = .con (.mk .branch none (some
      [.mk .branchPart none (optList (collectStmts fn body)),
       .mk .branchPart none (optList (collectStmts fn orelse))])) ∧
    visit fn (.tryFinally body finalbody) = .con (.mk .branch none (some
      [.mk .branchPart none (optList (collectStmts fn body)),
       .mk .branchPart none (optList (collectStmts fn finalbody))])) :=
  ⟨rfl, rfl, rfl⟩

/-- C5, counterexample: the claim states that after the initial build every
package's children are sorted by construct name.  The build iterates over
file names in sorted order, but a file's construct name drops the last
dot-segment: for the snapshot `[foo.bar.py, foo.py]` the children come out
as `[foo.bar, foo]`, which is not sorted by name. -/
theorem C5_counterexample :
    make_package_from_dir false ["py"] "R" dotsSnapshot = .mk .package (some "R")
      (some [.mk .package (some "foo.bar") none, .mk .package (some "foo") none]) ∧
    isSortedByName (childrenOf (make_package_from_dir false ["py"] "R" dotsSnapshot)) = false :=
  ⟨rfl, rfl⟩

/-- C5, amended: the children of a package mutated by an event are sorted by
name afterwards — both `_create_package`'s and `_update_file_contents`'
children transformations end in `children.sort(key=lambda x: x.name)` — but
the initial build only orders children by filesystem entry name, which can
disagree with construct-name order when a file name contains several dots. -/
theorem C5_mutation_sorted (cs : List Construct) (name : String) (con : Construct) :
    isSortedByName (create_children cs name) = true ∧
    isSortedByName (update_children cs con) = true :=
  ⟨isSortedByName_pySortCon _, isSortedByName_pySortCon _⟩

/-- C6: a function definition whose body is a single `if`/`else` converts to
a `Function` of that name with exactly one child: a `Branch` with exactly
two `BranchPart` children in order — the first holding the flattened primary
clause, the second the flattened alternate clause. -/
theorem C6_function_if_else (fn gname : String) (test : Ast) (body orelse : List Ast)
    (hb : body ≠ []) (ho : orelse ≠ []) :
    visit fn (.functionDef gname [.ifStmt test body orelse]) =
      .con (.mk .function (some gname) (some [.mk .branch none (some
        [.mk .branchPart none (optList (collectStmts fn body)),
         .mk .branchPart none (optList (collectStmts fn orelse))])])) :=
  rfl

/-- C6, witness: `def f: if _: pass else: pass` converts to
Function `f` → Branch → two BranchParts. -/
theorem C6_function_if_else_witness :
    (([passStmt] : List Ast) ≠ [] ∧ ([passStmt] : List Ast) ≠ []) ∧
    visit "m.py" (.functionDef "f" [.ifStmt passStmt [passStmt] [passStmt]]) =
      .con (.mk .function (some "f") (some [.mk .branch none (some
        [.mk .branchPart none (optList (collectStmts "m.py" [passStmt])),
         .mk .branchPart none (optList (collectStmts "m.py" [passStmt]))])])) :=
  ⟨⟨by simp, by simp⟩,
    C6_function_if_else "m.py" "f" passStmt [passStmt] [passStmt] (by simp) (by simp)⟩

/-- C7: in a directory snapshot with two sibling source files where A parses
and B raises a `ParseError`, the initial build returns normally (no error
escapes), contains A's converted construct, and omits B entirely — whichever
of the two files the name-sorted scan visits first (the proof cases on the
sort order, so in particular the build continues past a failure that occurs
before the valid file is reached). -/
theorem C7_parse_failure_isolation (rname nA nB : String) (bodyA : List Ast)
    (h1 : ext_matches ["py"] nA = true) (h2 : ext_matches ["py"] nB = true)
    (h3 : startsWithDot nA = false) (h4 : startsWithDot nB = false) :
    make_package_from_dir false ["py"] rname [.file nA (.ok bodyA), .file nB (.error ())] =
      .mk .package (some rname) (some [visit_Module nA bodyA]) := by
  by_cases h5 : pyLeStr nA nB = true <;>
    simp [make_package_from_dir, entryListSize, entrySize, buildEntries, pySortEntries, pySort,
      insertLe, entryName, h1, h2, h3, h4, h5, convert_file]

/-- C7, witness: building over `b.py` (valid, empty module) and `a.py`
(syntax error) yields exactly the package converted from `b.py`; here the
failing file sorts first, so the scan continues past the failure. -/
theorem C7_parse_failure_isolation_witness :
    (ext_matches ["py"] "b.py" = true ∧ ext_matches ["py"] "a.py" = true ∧
      startsWithDot "b.py" = false ∧ startsWithDot "a.py" = false) ∧
    make_package_from_dir false ["py"] "R" [.file "b.py" (.ok []), .file "a.py" (.error ())] =
      .mk .package (some "R") (some [visit_Module "b.py" []]) :=
  ⟨⟨rfl, rfl, rfl, rfl⟩,
    C7_parse_failure_isolation "R" "b.py" "a.py" [] rfl rfl rfl rfl⟩

/-- C8, counterexample: the claim states that every accepted event produces
exactly one render.  A file-created event whose parent resolves but whose
file fails to parse is accepted and processed (the update is dropped), yet
the renderer is invoked zero times, not once. -/
theorem C8_counterexample :
    handle_create_file false demoRootA "" "b.py" (.error ()) =
      { tree := demoRootA, err := none, renders := 0 } ∧
    (0 : Nat) ≠ 1 :=
  ⟨rfl, by decide⟩

/-- C8, amended: an operation invokes the renderer exactly once when its
mutation completes — i.e. when no exception escapes, and for the file-update
path additionally when the file parsed — and zero times otherwise; it never
renders more than once per event. -/
theorem C8_render_per_event (root : Construct) (path name : String)
    (parsed : Except Unit Construct) :
    ((create_package root path name).renders = 1 ↔
      (create_package root path name).err = none) ∧
    (create_package root path name).renders ≤ 1 ∧
    ((remove_node root path name).renders = 1 ↔ (remove_node root path name).err = none) ∧
    (remove_node root path name).renders ≤ 1 ∧
    ((update_file_contents root path parsed).renders = 1 ↔
      ((update_file_contents root path parsed).err = none ∧ parsed.isOk = true)) ∧
    (update_file_contents root path parsed).renders ≤ 1 := by
  have hc := applyAt_renders root (pathParts path)
    (fun pkg =>
      match Construct.children pkg with
      | none => .error .attrErr
      | some cs =>
        .ok (.mk (Construct.kind pkg) (Construct.name pkg) (some (create_children cs name)),
          true))
    true
    (by
      rintro ⟨k, nm, ch⟩ r b hx
      cases ch with
      | none => simp [Construct.children] at hx
      | some cs =>
        simp only [Construct.children] at hx
        cases hx
        rfl)
  have hr := applyAt_renders root (pathParts path)
    (fun pkg =>
      match Construct.children pkg with
      | none => .error .typeErr
      | some cs =>
        match delFirstNamed cs name with
        | none => .error .fileUpdate
        | some cs2 => .ok (.mk (Construct.kind pkg) (Construct.name pkg) (some cs2), true))
    true
    (by
      rintro ⟨k, nm, ch⟩ r b hx
      cases ch with
      | none => simp [Construct.children] at hx
      | some cs =>
        simp only [Construct.children] at hx
        cases hd : delFirstNamed cs name with
        | none => rw [hd] at hx; cases hx
        | some cs2 =>
          rw [hd] at hx
          cases hx
          rfl)
  have hu := applyAt_renders root (pathParts path)
    (fun pkg =>
      match parsed with
      | .error _ => .ok (pkg, false)
      | .ok con =>
        match Construct.children pkg with
        | none => .error .typeErr
        | some cs =>
          .ok (.mk (Construct.kind pkg) (Construct.name pkg) (some (update_children cs con)),
            true))
    parsed.isOk
    (by
      rintro ⟨k, nm, ch⟩ r b hx
      cases parsed with
      | error u =>
        simp only at hx
        cases hx
        rfl
      | ok con =>
        cases ch with
        | none => simp [Construct.children] at hx
        | some cs =>
          simp only [Construct.children] at hx
          cases hx
          rfl)
  refine ⟨?_, ?_, ?_, ?_, ?_, ?_⟩
  · simpa [create_package] using hc.1
  · simpa [create_package] using hc.2
  · simpa [remove_node] using hr.1
  · simpa [remove_node] using hr.2
  · simpa [update_file_contents] using hu.1
  · simpa [update_file_contents] using hu.2

/-- C9: the root package name produced by conversion is
`_remove_file_extension` of the identifying file name — the dot-separated
components except the last, rejoined with `.`: one dot keeps the stem,
several dots lose only the last segment, and no dot at all yields the empty
string. -/
theorem C9_root_name (fn : String) (body : List Ast) :
    (Construct.kind (visit_Module fn body) = .package ∧
     Construct.name (visit_Module fn body) = some (remove_file_extension fn) ∧
     convert_file fn (.ok body) = .ok (visit_Module fn body)) ∧
    remove_file_extension "foo.py" = "foo" ∧
    remove_file_extension "a.b.py" = "a.b" ∧
    remove_file_extension "foo" = "" ∧
    Construct.name (visit_Module "foo.py" []) = some "foo" ∧
    Construct.name (visit_Module "a.b.py" []) = some "a.b" ∧
    Construct.name (visit_Module "foo" []) = some "" :=
  ⟨⟨rfl, rfl, rfl⟩, rfl, rfl, rfl, rfl, rfl, rfl⟩

/-- C10: path resolution on `""` or `"/"` returns the project root itself
without error, and each descent step follows the first child whose name
equals the segment regardless of that child's kind (the matched child `c`
below is arbitrary — e.g. a `Class` or `Function`). -/
theorem C10_path_resolution (root : Construct) (k : Kind) (nm : Option String)
    (pre rest : List Construct) (c : Construct) (p : String) (segs : List String)
    (h1 : ∀ x ∈ pre, Construct.name x ≠ some p) (h2 : Construct.name c = some p) :
    get_package root "" = .ok root ∧
    get_package root "/" = .ok root ∧
    descend (.mk k nm (some (pre ++ c :: rest))) (p :: segs) = descend c segs := by
  refine ⟨rfl, rfl, ?_⟩
  simp only [descend, Construct.children]
  rw [lookupChild_skip p pre h1 c rest h2]

/-- C10, witness: in a root whose children are a `Function` named `a`
followed by a `Class` named `b`, resolving the segment `b` follows the
`Class` child (kinds do not matter), and the empty and `/` paths return the
root. -/
theorem C10_path_resolution_witness :
    ((∀ x ∈ [Construct.mk .function (some "a") none], Construct.name x ≠ some "b") ∧
      Construct.name (Construct.mk .cls (some "b") (some [])) = some "b") ∧
    (get_package demoRootA "" = .ok demoRootA ∧
     get_package demoRootA "/" = .ok demoRootA ∧
     descend (.mk .package (some "R")
        (some ([Construct.mk .function (some "a") none] ++
          Construct.mk .cls (some "b") (some []) :: []))) ["b"]
       = descend (Construct.mk .cls (some "b") (some [])) []) :=
  ⟨⟨by decide, rfl⟩,
    C10_path_resolution demoRootA .package (some "R")
      [Construct.mk .function (some "a") none] [] (Construct.mk .cls (some "b") (some []))
      "b" [] (by decide) rfl⟩

end Codevis
